import Mathlib

/-!
Verification of the activation / entitlement core of the Dictionary-Plus
server (`server.py`), together with the phonetic-group content search.

The SQLite tables `codes` and `devices` are modelled as partial maps keyed
by their primary keys.  Timestamps are modelled as natural numbers (the
code stores ISO-8601 UTC strings and compares the parsed values; only the
ordering and the addition of a plan duration matter here).  Python
truthiness is modelled explicitly where the code relies on it:
`str(None) = "None"`, the empty string is falsy, and a `used_by` column
holding NULL or the empty string is falsy.
-/

namespace DictPlus

/-- A row of the `codes` table (primary key: `code`). -/
structure CodeRow where
  type : String
  used_by : Option String
deriving DecidableEq

/-- A row of the `devices` table (primary key: `machine_id`). -/
structure DeviceRow where
  activation_code : String
  card_type : String
  activated_at : Nat
  expires_at : Nat
deriving DecidableEq

/-- The persistent store: the `codes` and `devices` tables, as maps from
primary key to row. -/
structure Store where
  codes : String → Option CodeRow
  devices : String → Option DeviceRow

/-- The empty database. -/
def Store.empty : Store := ⟨fun _ => none, fun _ => none⟩

/-- `INSERT OR REPLACE`-style write of a `codes` row. -/
def Store.setCode (σ : Store) (c : String) (row : CodeRow) : Store :=
  { σ with codes := fun k => if k = c then some row else σ.codes k }

/-- `UPDATE codes SET used_by = ? WHERE code = ?` (a no-op on an absent key). -/
def Store.setUsedBy (σ : Store) (c : String) (ub : Option String) : Store :=
  { σ with codes := fun k =>
      if k = c then (σ.codes k).map (fun r => { r with used_by := ub })
      else σ.codes k }

/-- `INSERT INTO devices ...` (at an absent key). -/
def Store.setDevice (σ : Store) (d : String) (row : DeviceRow) : Store :=
  { σ with devices := fun k => if k = d then some row else σ.devices k }

/-- `DELETE FROM devices WHERE machine_id = ?`. -/
def Store.delDevice (σ : Store) (d : String) : Store :=
  { σ with devices := fun k => if k = d then none else σ.devices k }

/-- Python `str(request.json.get('machine_id'))`: a missing field is the
value `None`, and `str(None)` is the literal string `"None"`. -/
def pyStr : Option String → String
  | none => "None"
  | some s => s

/-- Python truthiness of an optional string: `None` and `""` are falsy. -/
def optTruthy : Option String → Bool
  | none => false
  | some s => s ≠ ""

/-- Result of `POST /activate` (`activate`, server.py lines 317-359). -/
inductive ActivateResult where
  | invalidRequest
  | invalidCode
  | alreadyBound
  | unknownPlan
  | serverError
  | ok (expires_at : Nat)
deriving DecidableEq

/-- Result of `POST /check_status` (`check_status`, server.py lines 301-315). -/
inductive StatusResult where
  | invalidRequest
  | unactivated
  | activated (expires_at : Nat) (card_type : String)
  | expired (expires_at : Nat)
deriving DecidableEq

/-- Result of the `require_activated_device` guard (server.py lines 178-196). -/
inductive GuardResult where
  | invalidRequest
  | unauthorized
  | expiredSub
  | ok
deriving DecidableEq

/-- Result of `POST /api/revoke_authorization` (server.py lines 465-492). -/
inductive RevokeResult where
  | invalidRequest
  | notFound
  | ok
deriving DecidableEq

/-- `check_status` (server.py lines 301-315).  The handler only runs a
SELECT, so the returned store is the input store.  `now < expires_at`
mirrors `expires_at > datetime.now(timezone.utc)`. -/
def check_status (now : Nat) (σ : Store) (midField : Option String) :
    StatusResult × Store :=
  let machine_id := pyStr midField
  if machine_id = "" then (.invalidRequest, σ)
  else
    match σ.devices machine_id with
    | none => (.unactivated, σ)
    | some di =>
      if now < di.expires_at then (.activated di.expires_at di.card_type, σ)
      else (.expired di.expires_at, σ)

/-- The `require_activated_device` guard (server.py lines 178-196).
`expires_at <= now` is rejected as an expired subscription. -/
def require_activated_device (now : Nat) (σ : Store) (midField : Option String) :
    GuardResult :=
  let machine_id := pyStr midField
  if machine_id = "" then .invalidRequest
  else
    match σ.devices machine_id with
    | none => .unauthorized
    | some di => if di.expires_at ≤ now then .expiredSub else .ok

/-- `activate` (server.py lines 317-359), executed sequentially.
`durations` is the `CARD_DURATIONS` configuration table; a missing entry
or a zero duration (`timedelta(0)` is falsy in Python) is rejected as an
unknown plan.  The code check uses Python truthiness of `used_by`
(`if not code_info or code_info['used_by']`), so a NULL or empty-string
`used_by` counts as unused. -/
def activate (durations : String → Option Nat) (now : Nat) (σ : Store)
    (midField codeField : Option String) : ActivateResult × Store :=
  let machine_id := pyStr midField
  let code_str := match codeField with | none => "" | some s => s
  if machine_id = "" ∨ code_str = "" then (.invalidRequest, σ)
  else
    match σ.codes code_str with
    | none => (.invalidCode, σ)
    | some code_info =>
      if optTruthy code_info.used_by then (.invalidCode, σ)
      else if (σ.devices machine_id).isSome then (.alreadyBound, σ)
      else
        match durations code_info.type with
        | none => (.unknownPlan, σ)
        | some dur =>
          if dur = 0 then (.unknownPlan, σ)
          else
            (.ok (now + dur),
              (σ.setUsedBy code_str (some machine_id)).setDevice machine_id
                ⟨code_str, code_info.type, now, now + dur⟩)

/-- `revoke_authorization` (server.py lines 465-492).  The raw
`machine_id` field is used without `str` coercion here; a missing or empty
value is an invalid request.  The binding is deleted and, when the stored
`activation_code` is truthy, that code's `used_by` is reset to NULL. -/
def revoke_authorization (σ : Store) (midField : Option String) :
    RevokeResult × Store :=
  match midField with
  | none => (.invalidRequest, σ)
  | some machine_id =>
    if machine_id = "" then (.invalidRequest, σ)
    else
      match σ.devices machine_id with
      | none => (.notFound, σ)
      | some di =>
        let σ1 := σ.delDevice machine_id
        (.ok, if di.activation_code = "" then σ1
              else σ1.setUsedBy di.activation_code none)

/-- Insertion of a batch of freshly generated codes, all unused, of one
card type (the loop body of the `executemany` in `manage`,
server.py lines 402-407). -/
def insertCodes (card_type : String) (cs : List String) (σ : Store) : Store :=
  cs.foldl (fun s c => s.setCode c ⟨card_type, none⟩) σ

/-- The code-generation action of `manage` (server.py lines 395-415).
`INSERT` (not `INSERT OR IGNORE`) into a primary-keyed table fails on any
duplicate, and the surrounding connection context rolls the whole batch
back, so the insertion happens only when the batch is duplicate-free and
disjoint from the existing table; otherwise the store is unchanged. -/
def manage_generate (card_type : String) (cs : List String) (σ : Store) : Store :=
  if cs.Nodup ∧ ∀ c ∈ cs, σ.codes c = none then insertCodes card_type cs σ else σ

/-! ### Content index (`build_indexes` / `advanced_search`, phonetic-group mode)

`dictionary_data` maps a glyph to its JSON entry; the build scripts
(`build_final_database.py`, `generate_json_database.py`) guarantee that the
dictionary key equals the entry's own `glyph` field, so the in-memory index
is modelled as a list of entries in insertion order, looked up by glyph. -/

/-- The fields of a dictionary entry used by the phonetic-group search:
the primary key `glyph`, the leader mark `is_phonetic_radical`, and the
`components.phonetic_radical` back-reference. -/
structure Entry where
  glyph : String
  is_phonetic_radical : Bool
  phonetic_radical : Option String
deriving DecidableEq

/-- `dictionary_data.get(query)`: lookup by glyph key. -/
def dictGet (dd : List Entry) (q : String) : Option Entry :=
  dd.find? (fun e => e.glyph = q)

/-- Leader resolution of `advanced_search`, phonetic-group branch
(server.py lines 384-386): start from the entry's
`components.phonetic_radical`; when the entry is marked
`is_phonetic_radical`, the query itself overrides it. -/
def resolveRadical (dd : List Entry) (q : String) : Option String :=
  match dictGet dd q with
  | none => none
  | some e => if e.is_phonetic_radical then some q else e.phonetic_radical

/-- The raw (pre-deduplication) result list of the phonetic-group branch
(server.py lines 383-390).  `if radical:` is a Python truthiness test. -/
def phoneticGroupResults (dd : List Entry) (q : String) : List Entry :=
  let radical := resolveRadical dd q
  if optTruthy radical then
    dd.filter (fun e => e.phonetic_radical = radical ∨ some e.glyph = radical)
  else
    match dictGet dd q with
    | some e => [e]
    | none => []

/-- One assignment `dict[k] = v` on an insertion-ordered Python dict:
an existing key keeps its position and gets the new value, a new key is
appended. -/
def dictInsert (m : List (String × Entry)) (k : String) (v : Entry) :
    List (String × Entry) :=
  if m.any (fun p => p.1 = k) then
    m.map (fun p => if p.1 = k then (k, v) else p)
  else m ++ [(k, v)]

/-- The deduplication dict built by
`{item['glyph']: item for item in results}`. -/
def dedupFold (rs : List Entry) (m : List (String × Entry)) :
    List (String × Entry) :=
  rs.foldl (fun acc e => dictInsert acc e.glyph e) m

/-- `list({item['glyph']: item for item in results}.values())`
(server.py line 391). -/
def pyDictDedup (rs : List Entry) : List Entry :=
  (dedupFold rs []).map Prod.snd

/-- The full phonetic-group search: raw results, then deduplication by
glyph. -/
def phoneticGroupSearch (dd : List Entry) (q : String) : List Entry :=
  pyDictDedup (phoneticGroupResults dd q)

/-! ### Interleaved execution of `activate`

Python's `sqlite3` module (default `isolation_level`) begins the implicit
transaction only at the first INSERT/UPDATE/DELETE; the two SELECTs of
`activate` therefore run in autocommit mode, outside the write
transaction.  Each SELECT is one atomic read of the shared store, and the
UPDATE + INSERT + COMMIT block is one atomic write (SQLite serialises
writers).  An `activate` call is accordingly a sequence of three atomic
micro-steps against the shared store. -/

/-- The thread-local control state of one in-flight `activate` call that
has passed the request validation of line 321. -/
inductive ALocal where
  | start
  | gotCode (code_info : CodeRow)
  | checkedDevice (code_info : CodeRow)
  | finished (r : ActivateResult)
deriving DecidableEq

/-- One micro-step of an `activate(machine_id, code_str)` call: the code
SELECT (line 326), the device SELECT (line 331), and the write transaction
(lines 347-352), with the early returns of lines 327-340 and the
`sqlite3.Error` handler of lines 354-356 (a device-row primary-key
conflict at commit time rolls the transaction back). -/
inductive AStep (durations : String → Option Nat) (now : Nat)
    (machine_id code_str : String) :
    ALocal → Store → ALocal → Store → Prop where
  | read_code_absent {σ : Store} :
      σ.codes code_str = none →
      AStep durations now machine_id code_str .start σ (.finished .invalidCode) σ
  | read_code_used {σ : Store} {ci : CodeRow} :
      σ.codes code_str = some ci → optTruthy ci.used_by = true →
      AStep durations now machine_id code_str .start σ (.finished .invalidCode) σ
  | read_code_ok {σ : Store} {ci : CodeRow} :
      σ.codes code_str = some ci → optTruthy ci.used_by = false →
      AStep durations now machine_id code_str .start σ (.gotCode ci) σ
  | read_device_present {σ : Store} {ci : CodeRow} :
      (σ.devices machine_id).isSome = true →
      AStep durations now machine_id code_str (.gotCode ci) σ
        (.finished .alreadyBound) σ
  | read_device_absent {σ : Store} {ci : CodeRow} :
      σ.devices machine_id = none →
      AStep durations now machine_id code_str (.gotCode ci) σ
        (.checkedDevice ci) σ
  | commit_no_plan {σ : Store} {ci : CodeRow} :
      durations ci.type = none →
      AStep durations now machine_id code_str (.checkedDevice ci) σ
        (.finished .unknownPlan) σ
  | commit_zero_plan {σ : Store} {ci : CodeRow} :
      durations ci.type = some 0 →
      AStep durations now machine_id code_str (.checkedDevice ci) σ
        (.finished .unknownPlan) σ
  | commit_conflict {σ : Store} {ci : CodeRow} {d : Nat} :
      durations ci.type = some d → d ≠ 0 →
      (σ.devices machine_id).isSome = true →
      AStep durations now machine_id code_str (.checkedDevice ci) σ
        (.finished .serverError) σ
  | commit_ok {σ : Store} {ci : CodeRow} {d : Nat} :
      durations ci.type = some d → d ≠ 0 →
      σ.devices machine_id = none →
      AStep durations now machine_id code_str (.checkedDevice ci) σ
        (.finished (.ok (now + d)))
        ((σ.setUsedBy code_str (some machine_id)).setDevice machine_id
          ⟨code_str, ci.type, now, now + d⟩)

/-- The request parameters of one `activate` call. -/
structure ActCall where
  machine_id : String
  code_str : String

/-- Shared store plus the control states of two concurrent `activate`
calls. -/
structure Sys where
  store : Store
  loc1 : ALocal
  loc2 : ALocal

/-- Interleaving semantics: at each step, one of the two threads performs
its next atomic micro-step. -/
inductive SysStep (durations : String → Option Nat) (now : Nat)
    (r1 r2 : ActCall) : Sys → Sys → Prop where
  | thread1 {σ σ1 : Store} {l1 l1t l2 : ALocal} :
      AStep durations now r1.machine_id r1.code_str l1 σ l1t σ1 →
      SysStep durations now r1 r2 ⟨σ, l1, l2⟩ ⟨σ1, l1t, l2⟩
  | thread2 {σ σ1 : Store} {l1 l2 l2t : ALocal} :
      AStep durations now r2.machine_id r2.code_str l2 σ l2t σ1 →
      SysStep durations now r1 r2 ⟨σ, l1, l2⟩ ⟨σ1, l1, l2t⟩

/-! ### Reachable states and the store invariant -/

/-- One sequential API action on the store: an `activate` call, a
revocation, or a code-generation batch. -/
inductive Step : Store → Store → Prop where
  | act (durations : String → Option Nat) (now : Nat)
      (midField codeField : Option String) (σ : Store) :
      Step σ (activate durations now σ midField codeField).2
  | rev (midField : Option String) (σ : Store) :
      Step σ (revoke_authorization σ midField).2
  | gen (card_type : String) (cs : List String) (σ : Store) :
      Step σ (manage_generate card_type cs σ)

/-- States reachable from the empty database through the API. -/
def Reachable (σ : Store) : Prop :=
  Relation.ReflTransGen Step Store.empty σ

/-- The binding/code correspondence: every device binding points at an
existing code redeemed by exactly that device, and every redeemed code has
the matching binding. -/
def CodesDevicesLinked (σ : Store) : Prop :=
  (∀ d b, σ.devices d = some b →
      ∃ row, σ.codes b.activation_code = some row ∧ row.used_by = some d) ∧
  (∀ c row d, σ.codes c = some row → row.used_by = some d →
      ∃ b, σ.devices d = some b ∧ b.activation_code = c)

/-- Induction-strengthened invariant: the correspondence, plus the facts
that bindings always reference a non-empty code string and codes are never
redeemed by the empty device id (both guaranteed by the request validation
in `activate`). -/
def StoreInv (σ : Store) : Prop :=
  CodesDevicesLinked σ ∧
  (∀ d b, σ.devices d = some b → b.activation_code ≠ "") ∧
  (∀ c row, σ.codes c = some row → row.used_by ≠ some "")

/-! ### Concrete fixtures (the default configuration's monthly plan) -/

/-- The `CARD_DURATIONS` table of the default configuration, restricted to
the monthly plan (30 days). -/
def monthlyDurations : String → Option Nat :=
  fun t => if t = "monthly" then some 30 else none

/-- A store holding one unused monthly code `"C"`. -/
def oneCodeStore : Store := Store.empty.setCode "C" ⟨"monthly", none⟩

/-- The store after `"dev-1"` activates `"C"` at time 0. -/
def boundStore : Store :=
  (activate monthlyDurations 0 oneCodeStore (some "dev-1") (some "C")).2

/-- `boundStore` with a second, unused monthly code `"D"`. -/
def twoCodeStore : Store := boundStore.setCode "D" ⟨"monthly", none⟩

/-- A store whose code `"C"` carries the empty string in `used_by`
(representable in the `codes` table, where `used_by` is a nullable TEXT
column). -/
def emptyRedeemerStore : Store := Store.empty.setCode "C" ⟨"monthly", some ""⟩

/-- Four dictionary entries: the radical `山`, its two derived characters,
and an unrelated radical `水`. -/
def sampleDict : List Entry :=
  [⟨"山", true, none⟩, ⟨"仙", false, some "山"⟩,
   ⟨"汕", false, some "山"⟩, ⟨"水", true, none⟩]

/-- The initial store of the double-redemption race: one unused monthly
code `"CODE1"`, no bindings. -/
def raceStore : Store := Store.empty.setCode "CODE1" ⟨"monthly", none⟩

/-- First concurrent activation request. -/
def raceCall1 : ActCall := ⟨"dev-1", "CODE1"⟩

/-- Second concurrent activation request, distinct device, same code. -/
def raceCall2 : ActCall := ⟨"dev-2", "CODE1"⟩

/-- The store after thread 1 commits. -/
def raceMid : Store :=
  (raceStore.setUsedBy "CODE1" (some "dev-1")).setDevice "dev-1"
    ⟨"CODE1", "monthly", 0, 30⟩

/-- The store after thread 2 also commits: both devices bound, the code's
`used_by` overwritten by the second writer. -/
def raceFinal : Store :=
  (raceMid.setUsedBy "CODE1" (some "dev-2")).setDevice "dev-2"
    ⟨"CODE1", "monthly", 0, 30⟩

/-! ### Store projection lemmas -/

@[simp] theorem Store.codes_setDevice (σ : Store) (d : String) (b : DeviceRow) :
    (σ.setDevice d b).codes = σ.codes := rfl

@[simp] theorem Store.devices_setDevice (σ : Store) (d : String) (b : DeviceRow)
    (k : String) :
    (σ.setDevice d b).devices k = if k = d then some b else σ.devices k := rfl

@[simp] theorem Store.devices_setUsedBy (σ : Store) (c : String)
    (ub : Option String) :
    (σ.setUsedBy c ub).devices = σ.devices := rfl

@[simp] theorem Store.codes_setUsedBy (σ : Store) (c : String) (ub : Option String)
    (k : String) :
    (σ.setUsedBy c ub).codes k =
      if k = c then (σ.codes k).map (fun r => { r with used_by := ub })
      else σ.codes k := rfl

@[simp] theorem Store.codes_setCode (σ : Store) (c : String) (row : CodeRow)
    (k : String) :
    (σ.setCode c row).codes k = if k = c then some row else σ.codes k := rfl

@[simp] theorem Store.devices_setCode (σ : Store) (c : String) (row : CodeRow) :
    (σ.setCode c row).devices = σ.devices := rfl

@[simp] theorem Store.codes_delDevice (σ : Store) (d : String) :
    (σ.delDevice d).codes = σ.codes := rfl

@[simp] theorem Store.devices_delDevice (σ : Store) (d : String) (k : String) :
    (σ.delDevice d).devices k = if k = d then none else σ.devices k := rfl

/-! ### Computation lemmas for the API operations -/

/-- `activate` on the success path. -/
theorem activate_eq_ok {durations : String → Option Nat} {now : Nat} {σ : Store}
    {mf cf : Option String} {c : String} {ci : CodeRow} {dur : Nat}
    (hm : pyStr mf ≠ "") (hcf : cf = some c) (hc : c ≠ "")
    (hcode : σ.codes c = some ci) (hub : optTruthy ci.used_by = false)
    (hdev : σ.devices (pyStr mf) = none)
    (hdur : durations ci.type = some dur) (h0 : dur ≠ 0) :
    activate durations now σ mf cf =
      (.ok (now + dur),
       (σ.setUsedBy c (some (pyStr mf))).setDevice (pyStr mf)
         ⟨c, ci.type, now, now + dur⟩) := by
  subst hcf
  unfold activate
  simp [hm, hc, hcode, hub, hdev, hdur, h0]

/-- `activate` when the code is absent. -/
theorem activate_eq_invalidCode_absent {durations : String → Option Nat}
    {now : Nat} {σ : Store} {mf cf : Option String} {c : String}
    (hm : pyStr mf ≠ "") (hcf : cf = some c) (hc : c ≠ "")
    (hcode : σ.codes c = none) :
    activate durations now σ mf cf = (.invalidCode, σ) := by
  subst hcf
  unfold activate
  simp [hm, hc, hcode]

/-- `activate` when the code is already redeemed (truthy `used_by`). -/
theorem activate_eq_invalidCode_used {durations : String → Option Nat}
    {now : Nat} {σ : Store} {mf cf : Option String} {c : String} {ci : CodeRow}
    (hm : pyStr mf ≠ "") (hcf : cf = some c) (hc : c ≠ "")
    (hcode : σ.codes c = some ci) (hub : optTruthy ci.used_by = true) :
    activate durations now σ mf cf = (.invalidCode, σ) := by
  subst hcf
  unfold activate
  simp [hm, hc, hcode, hub]

/-- `activate` when the device already has a binding and the code is valid
and unused. -/
theorem activate_eq_alreadyBound {durations : String → Option Nat}
    {now : Nat} {σ : Store} {mf cf : Option String} {c : String} {ci : CodeRow}
    {b : DeviceRow}
    (hm : pyStr mf ≠ "") (hcf : cf = some c) (hc : c ≠ "")
    (hcode : σ.codes c = some ci) (hub : optTruthy ci.used_by = false)
    (hdev : σ.devices (pyStr mf) = some b) :
    activate durations now σ mf cf = (.alreadyBound, σ) := by
  subst hcf
  unfold activate
  simp [hm, hc, hcode, hub, hdev]

/-- Case analysis of `activate`: either the store is unchanged, or the
success path ran with all its checks satisfied. -/
theorem activate_snd_cases (durations : String → Option Nat) (now : Nat)
    (σ : Store) (mf cf : Option String) :
    (activate durations now σ mf cf).2 = σ ∨
    ∃ c ci dur, cf = some c ∧ c ≠ "" ∧ pyStr mf ≠ "" ∧
      σ.codes c = some ci ∧ optTruthy ci.used_by = false ∧
      σ.devices (pyStr mf) = none ∧ durations ci.type = some dur ∧ dur ≠ 0 ∧
      (activate durations now σ mf cf).2 =
        (σ.setUsedBy c (some (pyStr mf))).setDevice (pyStr mf)
          ⟨c, ci.type, now, now + dur⟩ := by
  cases cf with
  | none => left; simp [activate]
  | some c =>
    by_cases hm : pyStr mf = ""
    · left; simp [activate, hm]
    · by_cases hc : c = ""
      · left; simp [activate, hc]
      · cases hcode : σ.codes c with
        | none => left; simp [activate, hm, hc, hcode]
        | some ci =>
          by_cases hub : optTruthy ci.used_by
          · left; simp [activate, hm, hc, hcode, hub]
          · cases hdev : σ.devices (pyStr mf) with
            | some b => left; simp [activate, hm, hc, hcode, hub, hdev]
            | none =>
              cases hdur : durations ci.type with
              | none => left; simp [activate, hm, hc, hcode, hub, hdev, hdur]
              | some dur =>
                by_cases h0 : dur = 0
                · left; simp [activate, hm, hc, hcode, hub, hdev, hdur, h0]
                · right
                  refine ⟨c, ci, dur, rfl, hc, hm, hcode, by simpa using hub,
                    rfl, hdur, h0, ?_⟩
                  simp [activate, hm, hc, hcode, hub, hdev, hdur, h0]

/-- Case analysis of `revoke_authorization`: either the store is
unchanged, or a binding was deleted (with or without the code reset). -/
theorem revoke_snd_cases (σ : Store) (mf : Option String) :
    (revoke_authorization σ mf).2 = σ ∨
    ∃ m di, mf = some m ∧ m ≠ "" ∧ σ.devices m = some di ∧
      ((di.activation_code = "" ∧
          (revoke_authorization σ mf).2 = σ.delDevice m) ∨
       (di.activation_code ≠ "" ∧
          (revoke_authorization σ mf).2 =
            (σ.delDevice m).setUsedBy di.activation_code none)) := by
  cases mf with
  | none => left; rfl
  | some m =>
    by_cases hm : m = ""
    · left; simp [revoke_authorization, hm]
    · cases hdev : σ.devices m with
      | none => left; simp [revoke_authorization, hm, hdev]
      | some di =>
        right
        refine ⟨m, di, rfl, hm, hdev, ?_⟩
        by_cases hac : di.activation_code = ""
        · left; exact ⟨hac, by simp [revoke_authorization, hm, hdev, hac]⟩
        · right; exact ⟨hac, by simp [revoke_authorization, hm, hdev, hac]⟩

@[simp] theorem insertCodes_devices (ct : String) (cs : List String) (σ : Store) :
    (insertCodes ct cs σ).devices = σ.devices := by
  induction cs generalizing σ with
  | nil => rfl
  | cons c cs ih => exact (ih (σ.setCode c ⟨ct, none⟩)).trans rfl

theorem insertCodes_codes (ct : String) (cs : List String) (σ : Store)
    (k : String) :
    (insertCodes ct cs σ).codes k = some ⟨ct, none⟩ ∨
    (insertCodes ct cs σ).codes k = σ.codes k := by
  induction cs generalizing σ with
  | nil => right; rfl
  | cons c cs ih =>
    rcases ih (σ.setCode c ⟨ct, none⟩) with h | h
    · left; exact h
    · rw [show insertCodes ct (c :: cs) σ = insertCodes ct cs (σ.setCode c ⟨ct, none⟩)
        from rfl, h, Store.codes_setCode]
      by_cases hk : k = c
      · left; simp [hk]
      · right; simp [hk]

theorem insertCodes_codes_of_not_mem (ct : String) (cs : List String) (σ : Store)
    (k : String) (hk : k ∉ cs) :
    (insertCodes ct cs σ).codes k = σ.codes k := by
  induction cs generalizing σ with
  | nil => rfl
  | cons c cs ih =>
    have hkc : k ≠ c := fun h => hk (h ▸ List.mem_cons_self c cs)
    have hkcs : k ∉ cs := fun h => hk (List.mem_cons_of_mem c h)
    rw [show insertCodes ct (c :: cs) σ = insertCodes ct cs (σ.setCode c ⟨ct, none⟩)
      from rfl, ih _ hkcs, Store.codes_setCode]
    simp [hkc]

theorem storeInv_empty : StoreInv Store.empty := by
  refine ⟨⟨?_, ?_⟩, ?_, ?_⟩
  · intro d b hb; exact absurd hb (by simp [Store.empty])
  · intro c row d hc _; exact absurd hc (by simp [Store.empty])
  · intro d b hb; exact absurd hb (by simp [Store.empty])
  · intro c row hc; exact absurd hc (by simp [Store.empty])

/-- The success path of `activate` preserves the invariant. -/
theorem storeInv_update (σ : Store) (h : StoreInv σ) (m c : String) (ci : CodeRow)
    (hm : m ≠ "") (hc : c ≠ "") (hcode : σ.codes c = some ci)
    (hub : optTruthy ci.used_by = false) (hdev : σ.devices m = none)
    (a e : Nat) :
    StoreInv ((σ.setUsedBy c (some m)).setDevice m ⟨c, ci.type, a, e⟩) := by
  obtain ⟨⟨h1, h2⟩, h3, h4⟩ := h
  have hubn : ci.used_by = none := by
    cases hcu : ci.used_by with
    | none => rfl
    | some u =>
      exfalso
      rw [hcu] at hub
      by_cases hu : u = ""
      · exact h4 c ci hcode (by rw [hcu, hu])
      · simp [optTruthy, hu] at hub
  refine ⟨⟨?_, ?_⟩, ?_, ?_⟩
  · intro d b hb
    simp only [Store.devices_setDevice] at hb
    by_cases hd : d = m
    · rw [if_pos hd] at hb
      injection hb with hb
      subst hb
      exact ⟨{ ci with used_by := some m }, by simp [hcode], by simp [hd]⟩
    · rw [if_neg hd] at hb
      obtain ⟨row, hrow, hu⟩ := h1 d b hb
      have hbc : b.activation_code ≠ c := by
        intro hbc
        rw [hbc, hcode] at hrow
        injection hrow with hrow
        rw [← hrow, hubn] at hu
        exact Option.noConfusion hu
      refine ⟨row, ?_, hu⟩
      simp [hbc, hrow]
  · intro k row d hk hu
    simp only [Store.codes_setDevice, Store.codes_setUsedBy] at hk
    by_cases hkc : k = c
    · rw [if_pos hkc, hkc, hcode, Option.map_some'] at hk
      injection hk with hk
      rw [← hk] at hu
      simp only at hu
      injection hu with hu
      exact ⟨⟨c, ci.type, a, e⟩, by simp [← hu], hkc.symm⟩
    · rw [if_neg hkc] at hk
      obtain ⟨b, hb, hbc⟩ := h2 k row d hk hu
      have hdm : d ≠ m := fun hdm => by rw [hdm, hdev] at hb; exact Option.noConfusion hb
      exact ⟨b, by simp [hdm, hb], hbc⟩
  · intro d b hb
    simp only [Store.devices_setDevice] at hb
    by_cases hd : d = m
    · rw [if_pos hd] at hb
      injection hb with hb
      rw [← hb]
      exact hc
    · rw [if_neg hd] at hb
      exact h3 d b hb
  · intro k row hk
    simp only [Store.codes_setDevice, Store.codes_setUsedBy] at hk
    by_cases hkc : k = c
    · rw [if_pos hkc, hkc, hcode, Option.map_some'] at hk
      injection hk with hk
      rw [← hk]
      simp only [ne_eq, Option.some.injEq]
      exact hm
    · rw [if_neg hkc] at hk
      exact h4 k row hk

theorem storeInv_activate (durations : String → Option Nat) (now : Nat)
    (σ : Store) (mf cf : Option String) (h : StoreInv σ) :
    StoreInv (activate durations now σ mf cf).2 := by
  rcases activate_snd_cases durations now σ mf cf with heq |
    ⟨c, ci, dur, _, hc, hm, hcode, hub, hdev, _, _, heq⟩
  · rwa [heq]
  · rw [heq]
    exact storeInv_update σ h (pyStr mf) c ci hm hc hcode hub hdev now (now + dur)

theorem storeInv_revoke (σ : Store) (mf : Option String) (h : StoreInv σ) :
    StoreInv (revoke_authorization σ mf).2 := by
  rcases revoke_snd_cases σ mf with heq | ⟨m, di, _, _, hdev, hcase⟩
  · rwa [heq]
  obtain ⟨⟨h1, h2⟩, h3, h4⟩ := h
  rcases hcase with ⟨hac, _⟩ | ⟨hac, heq⟩
  · exact absurd hac (h3 m di hdev)
  rw [heq]
  obtain ⟨rowm, hrowm, hum⟩ := h1 m di hdev
  refine ⟨⟨?_, ?_⟩, ?_, ?_⟩
  · intro d b hb
    simp only [Store.devices_setUsedBy, Store.devices_delDevice] at hb
    by_cases hd : d = m
    · rw [if_pos hd] at hb; exact absurd hb (Option.noConfusion ·)
    · rw [if_neg hd] at hb
      obtain ⟨row, hrow, hu⟩ := h1 d b hb
      have hbc : b.activation_code ≠ di.activation_code := by
        intro hbc
        rw [hbc, hrowm] at hrow
        injection hrow with hrow
        rw [← hrow, hum] at hu
        injection hu with hu
        exact hd hu.symm
      refine ⟨row, ?_, hu⟩
      simp [Store.codes_setUsedBy, hbc, hrow]
  · intro k row d hk hu
    simp only [Store.codes_setUsedBy, Store.codes_delDevice] at hk
    by_cases hkc : k = di.activation_code
    · rw [if_pos hkc, hkc, hrowm, Option.map_some'] at hk
      injection hk with hk
      rw [← hk] at hu
      exact absurd hu (Option.noConfusion ·)
    · rw [if_neg hkc] at hk
      obtain ⟨b, hb, hbc⟩ := h2 k row d hk hu
      have hdm : d ≠ m := by
        intro hdm
        rw [hdm, hdev] at hb
        injection hb with hb
        exact hkc (by rw [← hbc, hb])
      exact ⟨b, by simp [hdm, hb], hbc⟩
  · intro d b hb
    simp only [Store.devices_setUsedBy, Store.devices_delDevice] at hb
    by_cases hd : d = m
    · rw [if_pos hd] at hb; exact absurd hb (Option.noConfusion ·)
    · rw [if_neg hd] at hb; exact h3 d b hb
  · intro k row hk
    simp only [Store.codes_setUsedBy, Store.codes_delDevice] at hk
    by_cases hkc : k = di.activation_code
    · rw [if_pos hkc, hkc, hrowm, Option.map_some'] at hk
      injection hk with hk
      rw [← hk]
      exact (Option.noConfusion ·)
    · rw [if_neg hkc] at hk
      exact h4 k row hk

theorem storeInv_generate (ct : String) (cs : List String) (σ : Store)
    (h : StoreInv σ) : StoreInv (manage_generate ct cs σ) := by
  unfold manage_generate
  split
  case isFalse => exact h
  case isTrue hfresh =>
    obtain ⟨⟨h1, h2⟩, h3, h4⟩ := h
    obtain ⟨-, hfresh⟩ := hfresh
    refine ⟨⟨?_, ?_⟩, ?_, ?_⟩
    · intro d b hb
      rw [insertCodes_devices] at hb
      obtain ⟨row, hrow, hu⟩ := h1 d b hb
      have hnm : b.activation_code ∉ cs := by
        intro hmem
        rw [hfresh _ hmem] at hrow
        exact Option.noConfusion hrow
      rw [insertCodes_codes_of_not_mem ct cs σ _ hnm]
      exact ⟨row, hrow, hu⟩
    · intro k row d hk hu
      rcases insertCodes_codes ct cs σ k with hins | hins
      · rw [hins] at hk
        injection hk with hk
        rw [← hk] at hu
        exact absurd hu (Option.noConfusion ·)
      · rw [hins] at hk
        obtain ⟨b, hb, hbc⟩ := h2 k row d hk hu
        exact ⟨b, by rw [insertCodes_devices]; exact hb, hbc⟩
    · intro d b hb
      rw [insertCodes_devices] at hb
      exact h3 d b hb
    · intro k row hk
      rcases insertCodes_codes ct cs σ k with hins | hins
      · rw [hins] at hk
        injection hk with hk
        rw [← hk]
        exact (Option.noConfusion ·)
      · rw [hins] at hk
        exact h4 k row hk

theorem storeInv_step (σ σt : Store) (hs : Step σ σt) (h : StoreInv σ) :
    StoreInv σt := by
  cases hs with
  | act durations now midField codeField σ =>
    exact storeInv_activate durations now σ midField codeField h
  | rev midField σ => exact storeInv_revoke σ midField h
  | gen card_type cs σ => exact storeInv_generate card_type cs σ h

theorem reachable_storeInv (σ : Store) (h : Reachable σ) : StoreInv σ := by
  induction h with
  | refl => exact storeInv_empty
  | tail _ hstep ih => exact storeInv_step _ _ hstep ih

/-! ### Properties of the glyph-keyed deduplication dict -/

theorem dictInsert_fst (m : List (String × Entry)) (k : String) (v : Entry) :
    (dictInsert m k v).map Prod.fst =
      if m.any (fun p => p.1 = k) then m.map Prod.fst
      else m.map Prod.fst ++ [k] := by
  unfold dictInsert
  split
  · rw [List.map_map]
    apply List.map_congr_left
    intro p _
    by_cases hp : p.1 = k
    · simp [hp]
    · simp [hp]
  · simp

theorem dictInsert_fst_nodup (m : List (String × Entry)) (k : String) (v : Entry)
    (h : (m.map Prod.fst).Nodup) : ((dictInsert m k v).map Prod.fst).Nodup := by
  rw [dictInsert_fst]
  split
  · exact h
  · rename_i hany
    rw [List.nodup_append]
    refine ⟨h, List.nodup_singleton k, ?_⟩
    intro g hg hgk
    rw [List.mem_singleton] at hgk
    subst hgk
    rcases List.mem_map.mp hg with ⟨p, hp, hpk⟩
    rw [List.any_eq_true] at hany
    exact hany ⟨p, hp, by simp [hpk]⟩

theorem dictInsert_mem (m : List (String × Entry)) (k : String) (v : Entry)
    (p : String × Entry) (hp : p ∈ dictInsert m k v) : p ∈ m ∨ p = (k, v) := by
  unfold dictInsert at hp
  split at hp
  · rcases List.mem_map.mp hp with ⟨q, hq, hqe⟩
    by_cases h : q.1 = k
    · right; rw [if_pos h] at hqe; exact hqe.symm
    · left; rw [if_neg h] at hqe; rwa [← hqe]
  · rcases List.mem_append.mp hp with h | h
    · left; exact h
    · right; simpa using h

theorem dedupFold_fst_nodup (rs : List Entry) (m : List (String × Entry))
    (h : (m.map Prod.fst).Nodup) : ((dedupFold rs m).map Prod.fst).Nodup := by
  induction rs generalizing m with
  | nil => exact h
  | cons e rs ih => exact ih _ (dictInsert_fst_nodup _ _ _ h)

theorem dedupFold_mem (rs : List Entry) (m : List (String × Entry))
    (p : String × Entry) (hp : p ∈ dedupFold rs m) :
    p ∈ m ∨ (p.1 = p.2.glyph ∧ p.2 ∈ rs) := by
  induction rs generalizing m with
  | nil => left; exact hp
  | cons e rs ih =>
    rcases ih _ hp with h | ⟨h1, h2⟩
    · rcases dictInsert_mem _ _ _ _ h with h | h
      · left; exact h
      · right
        rw [h]
        exact ⟨rfl, List.mem_cons_self e rs⟩
    · right; exact ⟨h1, List.mem_cons_of_mem e h2⟩

theorem dedupFold_fst_iff (rs : List Entry) (m : List (String × Entry))
    (g : String) :
    g ∈ (dedupFold rs m).map Prod.fst ↔
      g ∈ m.map Prod.fst ∨ ∃ e ∈ rs, e.glyph = g := by
  induction rs generalizing m with
  | nil => simp [dedupFold]
  | cons e rs ih =>
    rw [show dedupFold (e :: rs) m = dedupFold rs (dictInsert m e.glyph e)
      from rfl, ih, dictInsert_fst]
    by_cases hany : m.any (fun p => p.1 = e.glyph)
    · rw [if_pos hany]
      constructor
      · rintro (h | ⟨x, hx, hxg⟩)
        · exact Or.inl h
        · exact Or.inr ⟨x, List.mem_cons_of_mem e hx, hxg⟩
      · rintro (h | ⟨x, hx, hxg⟩)
        · exact Or.inl h
        · rcases List.mem_cons.mp hx with rfl | hx
          · left
            rw [List.any_eq_true] at hany
            rcases hany with ⟨p, hp, hpg⟩
            rw [← hxg]
            exact List.mem_map.mpr ⟨p, hp, by simpa using hpg⟩
          · exact Or.inr ⟨x, hx, hxg⟩
    · rw [if_neg hany]
      constructor
      · rintro (h | ⟨x, hx, hxg⟩)
        · rcases List.mem_append.mp h with h | h
          · exact Or.inl h
          · rw [List.mem_singleton] at h
            exact Or.inr ⟨e, List.mem_cons_self e rs, h.symm⟩
        · exact Or.inr ⟨x, List.mem_cons_of_mem e hx, hxg⟩
      · rintro (h | ⟨x, hx, hxg⟩)
        · exact Or.inl (List.mem_append.mpr (Or.inl h))
        · rcases List.mem_cons.mp hx with rfl | hx
          · exact Or.inl (List.mem_append.mpr (Or.inr (by simp [hxg])))
          · exact Or.inr ⟨x, hx, hxg⟩

theorem pyDictDedup_glyphs_eq (rs : List Entry) :
    (pyDictDedup rs).map Entry.glyph = (dedupFold rs []).map Prod.fst := by
  unfold pyDictDedup
  rw [List.map_map]
  apply List.map_congr_left
  intro p hp
  rcases dedupFold_mem rs [] p hp with h | ⟨h1, _⟩
  · exact absurd h (List.not_mem_nil p)
  · simp [Function.comp, h1]

theorem pyDictDedup_nodup (rs : List Entry) :
    ((pyDictDedup rs).map Entry.glyph).Nodup := by
  rw [pyDictDedup_glyphs_eq]
  exact dedupFold_fst_nodup rs [] (by simp)

theorem pyDictDedup_subset (rs : List Entry) (x : Entry)
    (h : x ∈ pyDictDedup rs) : x ∈ rs := by
  unfold pyDictDedup at h
  rcases List.mem_map.mp h with ⟨p, hp, hpx⟩
  rcases dedupFold_mem _ _ _ hp with h | ⟨_, h2⟩
  · exact absurd h (List.not_mem_nil p)
  · rwa [← hpx]

theorem pyDictDedup_covers (rs : List Entry) (y : Entry) (h : y ∈ rs) :
    ∃ x ∈ pyDictDedup rs, x.glyph = y.glyph := by
  have hmem : y.glyph ∈ (dedupFold rs []).map Prod.fst :=
    (dedupFold_fst_iff rs [] y.glyph).mpr (Or.inr ⟨y, h, rfl⟩)
  rw [← pyDictDedup_glyphs_eq] at hmem
  rcases List.mem_map.mp hmem with ⟨x, hx, hxg⟩
  exact ⟨x, hx, hxg⟩

/-! ### Claims C2, C3, C4 -/

/-- **C2** (counterexample): the claim "for every state, `activate` on a
code whose `redeemedBy` is already set fails with `InvalidCode` and leaves
the state unchanged" is false as stated: with `used_by = some ""` (set,
but falsy in Python), line 327's truthiness test treats the code as
unused, and the activation succeeds and mutates the store. -/
theorem c2_counterexample :
    emptyRedeemerStore.codes "C" = some ⟨"monthly", some ""⟩ ∧
    (activate monthlyDurations 0 emptyRedeemerStore
        (some "dev-9") (some "C")).1 = .ok 30 ∧
    (activate monthlyDurations 0 emptyRedeemerStore
        (some "dev-9") (some "C")).2.devices "dev-9" =
      some ⟨"C", "monthly", 0, 30⟩ :=
  ⟨by decide, by decide, by decide⟩

/-- **C2** (amended): for every state, `activate` on a code that is absent
or whose `redeemedBy` is set to a truthy (non-empty) value — in particular
any code consumed by an earlier activation — fails with `InvalidCode` and
leaves the stored state unchanged. -/
theorem c2_invalid_code (durations : String → Option Nat) (now : Nat)
    (σ : Store) (mf : Option String) (c : String)
    (hm : pyStr mf ≠ "") (hc : c ≠ "")
    (h : σ.codes c = none ∨
         ∃ ci, σ.codes c = some ci ∧ optTruthy ci.used_by = true) :
    activate durations now σ mf (some c) = (.invalidCode, σ) := by
  rcases h with h | ⟨ci, hci, hub⟩
  · exact activate_eq_invalidCode_absent hm rfl hc h
  · exact activate_eq_invalidCode_used hm rfl hc hci hub

/-- **C2** witness: re-activating the consumed code `"C"` from the second
device `"dev-2"` fails with `InvalidCode`. -/
theorem c2_witness :
    activate monthlyDurations 7 boundStore (some "dev-2") (some "C") =
      (.invalidCode, boundStore) :=
  c2_invalid_code monthlyDurations 7 boundStore (some "dev-2") "C"
    (by decide) (by decide)
    (Or.inr ⟨⟨"monthly", some "dev-1"⟩, by decide, by decide⟩)

/-- **C3**: a device that already has a binding (looked up under its
primary key, so at most one binding can exist per device) cannot activate
again: even with a different valid unused code the call fails with
`AlreadyBound` (HTTP 409, line 334) and the stored state is unchanged. -/
theorem c3_already_bound (durations : String → Option Nat) (now : Nat)
    (σ : Store) (mf : Option String) (c : String) (ci : CodeRow) (b : DeviceRow)
    (hm : pyStr mf ≠ "") (hc : c ≠ "")
    (hdev : σ.devices (pyStr mf) = some b)
    (hcode : σ.codes c = some ci) (hub : optTruthy ci.used_by = false) :
    activate durations now σ mf (some c) = (.alreadyBound, σ) :=
  activate_eq_alreadyBound hm rfl hc hcode hub hdev

/-- **C3** witness: the bound device `"dev-1"` activating the fresh code
`"D"` gets `AlreadyBound`, state unchanged. -/
theorem c3_witness :
    activate monthlyDurations 7 twoCodeStore (some "dev-1") (some "D") =
      (.alreadyBound, twoCodeStore) :=
  c3_already_bound monthlyDurations 7 twoCodeStore (some "dev-1") "D"
    ⟨"monthly", none⟩ ⟨"C", "monthly", 0, 30⟩
    (by decide) (by decide) (by decide) (by decide) (by decide)

/-- **C4**: a successful activation computes
`expiresAt = activatedAt + planDuration(planType)` with the plan duration
looked up at activation time from the code's stored plan type, and a
subsequent `checkStatus` before expiry reports `activated` with exactly
that plan type and expiry. -/
theorem c4_expiry_formula (durations : String → Option Nat) (now : Nat)
    (σ : Store) (mf : Option String) (c : String) (ci : CodeRow) (dur : Nat)
    (hm : pyStr mf ≠ "") (hc : c ≠ "")
    (hcode : σ.codes c = some ci) (hub : optTruthy ci.used_by = false)
    (hdev : σ.devices (pyStr mf) = none)
    (hdur : durations ci.type = some dur) (h0 : dur ≠ 0) :
    (activate durations now σ mf (some c)).1 = .ok (now + dur) ∧
    (activate durations now σ mf (some c)).2.devices (pyStr mf) =
      some ⟨c, ci.type, now, now + dur⟩ ∧
    (∀ now2, now2 < now + dur →
      (check_status now2 (activate durations now σ mf (some c)).2 mf).1 =
        .activated (now + dur) ci.type) := by
  have h := @activate_eq_ok durations now σ mf (some c) c ci dur
    hm rfl hc hcode hub hdev hdur h0
  rw [h]
  refine ⟨rfl, by simp, ?_⟩
  intro now2 hlt
  unfold check_status
  simp [hm, hlt]

/-- **C4** witness: the monthly (30-day) code `"C"` activated by `"dev-1"`
at time 0 expires at 30, and `checkStatus` at time 7 reports it. -/
theorem c4_witness :
    (activate monthlyDurations 0 oneCodeStore (some "dev-1") (some "C")).1 =
      .ok (0 + 30) ∧
    (activate monthlyDurations 0 oneCodeStore (some "dev-1")
        (some "C")).2.devices (pyStr (some "dev-1")) =
      some ⟨"C", "monthly", 0, 0 + 30⟩ ∧
    (∀ now2, now2 < 0 + 30 →
      (check_status now2 (activate monthlyDurations 0 oneCodeStore
          (some "dev-1") (some "C")).2 (some "dev-1")).1 =
        .activated (0 + 30) "monthly") :=
  c4_expiry_formula monthlyDurations 0 oneCodeStore (some "dev-1") "C"
    ⟨"monthly", none⟩ 30 (by decide) (by decide) (by decide) (by decide)
    (by decide) (by decide) (by decide)

/-! ### Claims C5, C6, C7 -/

/-- **C5**: both `check_status` and the guard classify a binding by a
boundary-exclusive comparison: active iff `now < expiresAt`, so
`expiresAt = now` is classified expired by both. -/
theorem c5_expiry_boundary (now : Nat) (σ : Store) (mf : Option String)
    (di : DeviceRow)
    (hm : pyStr mf ≠ "") (hdev : σ.devices (pyStr mf) = some di) :
    ((check_status now σ mf).1 = .activated di.expires_at di.card_type ↔
      now < di.expires_at) ∧
    ((check_status now σ mf).1 = .expired di.expires_at ↔
      di.expires_at ≤ now) ∧
    (require_activated_device now σ mf = .expiredSub ↔ di.expires_at ≤ now) ∧
    (require_activated_device now σ mf = .ok ↔ now < di.expires_at) := by
  unfold check_status require_activated_device
  by_cases hlt : now < di.expires_at
  · have hle : ¬ di.expires_at ≤ now := Nat.not_le.mpr hlt
    simp [hm, hdev, hlt, hle]
  · have hle : di.expires_at ≤ now := Nat.not_lt.mp hlt
    simp [hm, hdev, hlt, hle]

/-- **C5** witness: the binding of `"dev-1"` expires at 30; at `now = 30`
exactly, `check_status` says expired and the guard rejects. -/
theorem c5_witness :
    ((check_status 30 boundStore (some "dev-1")).1 = .expired 30) ∧
    (require_activated_device 30 boundStore (some "dev-1") = .expiredSub) := by
  have h := c5_expiry_boundary 30 boundStore (some "dev-1")
    ⟨"C", "monthly", 0, 30⟩ (by decide) (by decide)
  exact ⟨h.2.1.mpr (by decide), h.2.2.1.mpr (by decide)⟩

/-- **C6**: revocation deletes the binding and restores the code's
`used_by` to NULL, after which the same device can activate the same code
again, reconstructing a binding with the same code and card type and fresh
timestamps. -/
theorem c6_revoke_roundtrip (durations : String → Option Nat) (now : Nat)
    (σ : Store) (m c : String) (ci : CodeRow) (b : DeviceRow) (dur : Nat)
    (hm : m ≠ "") (hdev : σ.devices m = some b)
    (hbc : b.activation_code = c) (hbt : b.card_type = ci.type)
    (hc : c ≠ "") (hcode : σ.codes c = some ci)
    (hdur : durations ci.type = some dur) (h0 : dur ≠ 0) :
    (revoke_authorization σ (some m)).1 = .ok ∧
    (revoke_authorization σ (some m)).2.devices m = none ∧
    (revoke_authorization σ (some m)).2.codes c =
      some { ci with used_by := none } ∧
    (activate durations now (revoke_authorization σ (some m)).2
        (some m) (some c)).1 = .ok (now + dur) ∧
    (activate durations now (revoke_authorization σ (some m)).2
        (some m) (some c)).2.devices m =
      some ⟨b.activation_code, b.card_type, now, now + dur⟩ := by
  have hrev : revoke_authorization σ (some m) =
      (.ok, (σ.delDevice m).setUsedBy c none) := by
    unfold revoke_authorization
    simp [hm, hdev, hbc, hc]
  rw [hrev]
  have hcode2 : ((σ.delDevice m).setUsedBy c none).codes c =
      some { ci with used_by := none } := by
    simp [hcode]
  have hdev2 : ((σ.delDevice m).setUsedBy c none).devices m = none := by
    simp
  have hact := @activate_eq_ok durations now ((σ.delDevice m).setUsedBy c none)
    (some m) (some c) c { ci with used_by := none } dur
    hm rfl hc hcode2 rfl hdev2 hdur h0
  refine ⟨rfl, hdev2, hcode2, ?_, ?_⟩
  · rw [hact]
  · rw [hact, hbc, hbt]
    simp [pyStr]

/-- **C6** witness: revoking `"dev-1"` in `boundStore` and re-activating
`"C"` at time 100 succeeds and rebuilds the binding. -/
theorem c6_witness :
    (revoke_authorization boundStore (some "dev-1")).1 = .ok ∧
    (revoke_authorization boundStore (some "dev-1")).2.devices "dev-1" =
      none ∧
    (revoke_authorization boundStore (some "dev-1")).2.codes "C" =
      some ⟨"monthly", none⟩ ∧
    (activate monthlyDurations 100 (revoke_authorization boundStore
        (some "dev-1")).2 (some "dev-1") (some "C")).1 = .ok (100 + 30) ∧
    (activate monthlyDurations 100 (revoke_authorization boundStore
        (some "dev-1")).2 (some "dev-1") (some "C")).2.devices "dev-1" =
      some ⟨"C", "monthly", 100, 100 + 30⟩ :=
  c6_revoke_roundtrip monthlyDurations 100 boundStore "dev-1" "C"
    ⟨"monthly", some "dev-1"⟩ ⟨"C", "monthly", 0, 30⟩ 30
    (by decide) (by decide) (by decide) (by decide) (by decide) (by decide)
    (by decide) (by decide)

/-- `check_status` returns the store unchanged: the handler runs only a
SELECT. -/
theorem check_status_snd (now : Nat) (σ : Store) (mf : Option String) :
    (check_status now σ mf).2 = σ := by
  unfold check_status
  by_cases hm : pyStr mf = ""
  · simp [hm]
  · simp only [hm, if_false]
    cases σ.devices (pyStr mf) with
    | none => rfl
    | some di => by_cases h : now < di.expires_at <;> simp [h]

/-- **C7**: `check_status` is read-only (it never mutates storage — expiry
is recomputed live, not stored) and idempotent: a repeated call on the
state left by the first call, with no intervening mutation, returns the
identical result. -/
theorem c7_check_status_readonly (now : Nat) (σ : Store) (mf : Option String) :
    (check_status now σ mf).2 = σ ∧
    check_status now ((check_status now σ mf).2) mf = check_status now σ mf :=
  ⟨check_status_snd now σ mf, by rw [check_status_snd now σ mf]⟩

/-! ### Claims C9, C10, C8 -/

theorem check_status_fst_ne_invalid (now : Nat) (σ : Store) (mf : Option String)
    (hm : pyStr mf ≠ "") : (check_status now σ mf).1 ≠ .invalidRequest := by
  unfold check_status
  simp only [hm, if_false]
  cases σ.devices (pyStr mf) with
  | none => simp
  | some di => by_cases h : now < di.expires_at <;> simp [h]

theorem guard_ne_invalid (now : Nat) (σ : Store) (mf : Option String)
    (hm : pyStr mf ≠ "") : require_activated_device now σ mf ≠ .invalidRequest := by
  unfold require_activated_device
  simp only [hm, if_false]
  cases σ.devices (pyStr mf) with
  | none => simp
  | some di => by_cases h : di.expires_at ≤ now <;> simp [h]

theorem activate_fst_ne_invalid (durations : String → Option Nat) (now : Nat)
    (σ : Store) (mf : Option String) (c : String)
    (hm : pyStr mf ≠ "") (hc : c ≠ "") :
    (activate durations now σ mf (some c)).1 ≠ .invalidRequest := by
  unfold activate
  cases hcode : σ.codes c with
  | none => simp [hm, hc, hcode]
  | some ci =>
    by_cases hub : optTruthy ci.used_by
    · simp [hm, hc, hcode, hub]
    · cases hdev : σ.devices (pyStr mf) with
      | some b => simp [hm, hc, hcode, hub, hdev]
      | none =>
        cases hdur : durations ci.type with
        | none => simp [hm, hc, hcode, hub, hdev, hdur]
        | some dur =>
          by_cases h0 : dur = 0 <;> simp [hm, hc, hcode, hub, hdev, hdur, h0]

/-- A successful `activate` stores a binding under the coerced machine
id. -/
theorem activate_ok_binds (durations : String → Option Nat) (now : Nat)
    (σ : Store) (mf : Option String) (c : String) (e : Nat)
    (h : (activate durations now σ mf (some c)).1 = .ok e) :
    ((activate durations now σ mf (some c)).2.devices (pyStr mf)).isSome =
      true := by
  unfold activate at h ⊢
  by_cases hm : pyStr mf = ""
  · simp [hm] at h
  by_cases hc : c = ""
  · simp [hm, hc] at h
  cases hcode : σ.codes c with
  | none => simp [hm, hc, hcode] at h
  | some ci =>
    by_cases hub : optTruthy ci.used_by
    · simp [hm, hc, hcode, hub] at h
    cases hdev : σ.devices (pyStr mf) with
    | some b => simp [hm, hc, hcode, hub, hdev] at h
    | none =>
      cases hdur : durations ci.type with
      | none => simp [hm, hc, hcode, hub, hdev, hdur] at h
      | some dur =>
        by_cases h0 : dur = 0
        · simp [hm, hc, hcode, hub, hdev, hdur, h0] at h
        · simp [hm, hc, hcode, hub, hdev, hdur, h0]

/-- **C9**: a request body without `machine_id` is never an invalid
request: Python's `str(None)` coerces the missing field to the literal
string `"None"`, which `check_status`, `activate` and the guard treat as
an ordinary device id (so a successful `activate` can even bind `"None"`);
the invalid-request branch for a missing machine id is unreachable. -/
theorem c9_missing_machine_id_coerced :
    (∀ now σ, check_status now σ none = check_status now σ (some "None")) ∧
    (∀ now σ, (check_status now σ none).1 ≠ .invalidRequest) ∧
    (∀ now σ, require_activated_device now σ none =
      require_activated_device now σ (some "None")) ∧
    (∀ now σ, require_activated_device now σ none ≠ .invalidRequest) ∧
    (∀ durations now σ cf, activate durations now σ none cf =
      activate durations now σ (some "None") cf) ∧
    (∀ durations now σ c, c ≠ "" →
      (activate durations now σ none (some c)).1 ≠ .invalidRequest) ∧
    (∀ durations now σ c e,
      (activate durations now σ none (some c)).1 = .ok e →
      ((activate durations now σ none (some c)).2.devices "None").isSome =
        true) := by
  refine ⟨fun _ _ => rfl, ?_, fun _ _ => rfl, ?_, fun _ _ _ _ => rfl, ?_, ?_⟩
  · intro now σ
    exact check_status_fst_ne_invalid now σ none (by decide)
  · intro now σ
    exact guard_ne_invalid now σ none (by decide)
  · intro durations now σ c hc
    exact activate_fst_ne_invalid durations now σ none c (by decide) hc
  · intro durations now σ c e h
    exact activate_ok_binds durations now σ none c e h

/-- **C9** witness: with `machine_id` missing, `check_status` behaves as
for device `"None"`, neither it nor `activate` yields the invalid-request
error, and a successful activation binds device `"None"`. -/
theorem c9_witness :
    check_status 0 oneCodeStore none = check_status 0 oneCodeStore
      (some "None") ∧
    (check_status 0 oneCodeStore none).1 ≠ .invalidRequest ∧
    (activate monthlyDurations 0 oneCodeStore none (some "C")).1 ≠
      .invalidRequest ∧
    ((activate monthlyDurations 0 oneCodeStore none
        (some "C")).2.devices "None").isSome = true := by
  have h := c9_missing_machine_id_coerced
  exact ⟨h.1 0 oneCodeStore, h.2.1 0 oneCodeStore,
    h.2.2.2.2.2.1 monthlyDurations 0 oneCodeStore "C" (by decide),
    h.2.2.2.2.2.2 monthlyDurations 0 oneCodeStore "C" 30 (by decide)⟩

/-- **C10**: in every state reachable from the empty store via `activate`,
revocation and code generation, bindings and redeemed codes correspond
one-to-one: each binding references an existing code whose `used_by` is
that binding's device id, and each code with a redeemer has the matching
binding (bindings are keyed by device id, so it is unique). -/
theorem c10_codes_devices_linked (σ : Store) (h : Reachable σ) :
    CodesDevicesLinked σ :=
  (reachable_storeInv σ h).1

/-- **C10** witness: the invariant at a concrete reachable state (one
generation step from the empty store). -/
theorem c10_witness :
    CodesDevicesLinked (manage_generate "monthly" ["AB"] Store.empty) :=
  c10_codes_devices_linked _
    (Relation.ReflTransGen.single (Step.gen "monthly" ["AB"] Store.empty))

/-- **C8**: for a key present in the index, the phonetic-group search
resolves the group leader from the entry (the key itself when the entry is
marked as a leader, its `phonetic_radical` back-reference otherwise),
returns exactly the entries sharing that leader (or being the leader), and
deduplicates the result by the primary key `glyph`. -/
theorem c8_phonetic_group (dd : List Entry) (q : String) (e : Entry)
    (r : String)
    (hq : dictGet dd q = some e) (hr : resolveRadical dd q = some r)
    (hr0 : r ≠ "") :
    ((e.is_phonetic_radical = true → r = q) ∧
     (e.is_phonetic_radical = false → e.phonetic_radical = some r)) ∧
    ((phoneticGroupSearch dd q).map Entry.glyph).Nodup ∧
    (∀ x ∈ phoneticGroupSearch dd q,
      x ∈ dd ∧ (x.phonetic_radical = some r ∨ x.glyph = r)) ∧
    (∀ y ∈ dd, (y.phonetic_radical = some r ∨ y.glyph = r) →
      ∃ x ∈ phoneticGroupSearch dd q, x.glyph = y.glyph) := by
  have hres : phoneticGroupResults dd q =
      dd.filter (fun x => x.phonetic_radical = some r ∨ some x.glyph = some r) := by
    unfold phoneticGroupResults
    rw [hr]
    simp [optTruthy, hr0]
  refine ⟨?_, ?_, ?_, ?_⟩
  · unfold resolveRadical at hr
    rw [hq] at hr
    dsimp only at hr
    constructor
    · intro hmark
      rw [hmark] at hr
      simp at hr
      exact hr.symm
    · intro hmark
      rw [hmark] at hr
      simpa using hr
  · exact pyDictDedup_nodup (phoneticGroupResults dd q)
  · intro x hx
    have hx2 := pyDictDedup_subset (phoneticGroupResults dd q) x hx
    rw [hres] at hx2
    have := List.mem_filter.mp hx2
    refine ⟨this.1, ?_⟩
    have hp := of_decide_eq_true this.2
    simpa using hp
  · intro y hy hpred
    have hy2 : y ∈ phoneticGroupResults dd q := by
      rw [hres]
      refine List.mem_filter.mpr ⟨hy, decide_eq_true ?_⟩
      simpa using hpred
    exact pyDictDedup_covers (phoneticGroupResults dd q) y hy2

/-- **C8** witness: searching the group of `仙` in `sampleDict` resolves
leader `山` and returns the deduplicated group. -/
theorem c8_witness :
    (((⟨"仙", false, some "山"⟩ : Entry).is_phonetic_radical = true →
        "山" = "仙") ∧
     ((⟨"仙", false, some "山"⟩ : Entry).is_phonetic_radical = false →
        (⟨"仙", false, some "山"⟩ : Entry).phonetic_radical = some "山")) ∧
    ((phoneticGroupSearch sampleDict "仙").map Entry.glyph).Nodup ∧
    (∀ x ∈ phoneticGroupSearch sampleDict "仙",
      x ∈ sampleDict ∧ (x.phonetic_radical = some "山" ∨ x.glyph = "山")) ∧
    (∀ y ∈ sampleDict, (y.phonetic_radical = some "山" ∨ y.glyph = "山") →
      ∃ x ∈ phoneticGroupSearch sampleDict "仙", x.glyph = y.glyph) :=
  c8_phonetic_group sampleDict "仙" ⟨"仙", false, some "山"⟩ "山"
    (by decide) (by decide) (by decide)

/-! ### Claim C1: the double-redemption race -/

/-- **C1** is violated by the code: because the two SELECTs of `activate`
run before the implicit transaction begins (Python `sqlite3` starts it
only at the first write statement), two concurrent `activate` calls for
the same code from distinct devices can both pass the code check before
either commits.  In the interleaving below both calls return success,
both devices end up bound, and the code's `used_by` records only the last
writer — the code is consumed twice, contradicting "exactly one succeeds,
the rest fail with `InvalidCode`". -/
theorem c1_double_redemption :
    Relation.ReflTransGen (SysStep monthlyDurations 0 raceCall1 raceCall2)
      ⟨raceStore, .start, .start⟩
      ⟨raceFinal, .finished (.ok 30), .finished (.ok 30)⟩ ∧
    (raceFinal.devices "dev-1").isSome = true ∧
    (raceFinal.devices "dev-2").isSome = true ∧
    raceFinal.codes "CODE1" = some ⟨"monthly", some "dev-2"⟩ := by
  refine ⟨?_, by decide, by decide, by decide⟩
  have s1 : SysStep monthlyDurations 0 raceCall1 raceCall2
      ⟨raceStore, .start, .start⟩
      ⟨raceStore, .gotCode ⟨"monthly", none⟩, .start⟩ :=
    SysStep.thread1 (AStep.read_code_ok (by decide) (by decide))
  have s2 : SysStep monthlyDurations 0 raceCall1 raceCall2
      ⟨raceStore, .gotCode ⟨"monthly", none⟩, .start⟩
      ⟨raceStore, .gotCode ⟨"monthly", none⟩, .gotCode ⟨"monthly", none⟩⟩ :=
    SysStep.thread2 (AStep.read_code_ok (by decide) (by decide))
  have s3 : SysStep monthlyDurations 0 raceCall1 raceCall2
      ⟨raceStore, .gotCode ⟨"monthly", none⟩, .gotCode ⟨"monthly", none⟩⟩
      ⟨raceStore, .checkedDevice ⟨"monthly", none⟩, .gotCode ⟨"monthly", none⟩⟩ :=
    SysStep.thread1 (AStep.read_device_absent (by decide))
  have s4 : SysStep monthlyDurations 0 raceCall1 raceCall2
      ⟨raceStore, .checkedDevice ⟨"monthly", none⟩, .gotCode ⟨"monthly", none⟩⟩
      ⟨raceStore, .checkedDevice ⟨"monthly", none⟩,
        .checkedDevice ⟨"monthly", none⟩⟩ :=
    SysStep.thread2 (AStep.read_device_absent (by decide))
  have s5 : SysStep monthlyDurations 0 raceCall1 raceCall2
      ⟨raceStore, .checkedDevice ⟨"monthly", none⟩,
        .checkedDevice ⟨"monthly", none⟩⟩
      ⟨raceMid, .finished (.ok (0 + 30)), .checkedDevice ⟨"monthly", none⟩⟩ :=
    SysStep.thread1 (AStep.commit_ok (by decide) (by decide) (by decide))
  have s6 : SysStep monthlyDurations 0 raceCall1 raceCall2
      ⟨raceMid, .finished (.ok (0 + 30)), .checkedDevice ⟨"monthly", none⟩⟩
      ⟨raceFinal, .finished (.ok (0 + 30)), .finished (.ok (0 + 30))⟩ :=
    SysStep.thread2 (AStep.commit_ok (by decide) (by decide) (by decide))
  exact (((((Relation.ReflTransGen.single s1).tail s2).tail s3).tail
    s4).tail s5).tail s6

end DictPlus
